import Mathlib

/-!
Verification of the agent-protocol core of the `aws_serverless_agentic_ai`
repository: the agent registry, the S3-backed agent-to-agent (A2A) mailbox
protocol, the MCP client with its retry/backoff discipline, and the Lambda
handler envelope.

The Python sources are shallowly embedded:
* strings are Lean `String`s and Python string primitives (`str.replace`,
  `str.startswith`, `str.rstrip`) are modelled character-exactly on `List Char`;
* the single S3 message bucket is modelled as an association list from object
  key to stored message (JSON serialisation of a message dictionary composed
  with parsing is the identity on the records involved, so the stored JSON body
  is represented by the message record itself);
* fallible calls return `Except`; a Python function that swallows exceptions is
  total;
* nondeterministic run-time inputs (generated UUIDs, clock readings, transport
  outcomes, sleep observations) are explicit parameters.
-/

namespace AgenticAI

/-! ## Python string primitives -/

/-- Fuel-indexed worker for Python `str.replace`: scan left to right, replace
each non-overlapping occurrence of `pat`, and continue scanning after the
replacement (the replacement text is never rescanned).  One unit of fuel is
spent per consumed character, so `s.length` fuel always suffices. -/
def replaceAllF (pat rep : List Char) : Nat → List Char → List Char
  | _, [] => []
  | 0, s => s
  | fuel + 1, c :: cs =>
    if pat ≠ [] ∧ pat.isPrefixOf (c :: cs) then
      rep ++ replaceAllF pat rep fuel ((c :: cs).drop pat.length)
    else
      c :: replaceAllF pat rep fuel cs

/-- Python `s.replace(pat, rep)` for a non-empty `pat` (every call site in the
source uses the fixed pattern `"messages/"`). -/
def replaceAll (pat rep s : List Char) : List Char :=
  replaceAllF pat rep s.length s

/-- Python `s.replace(old, new)` on `String`s. -/
def pyReplace (s old new : String) : String :=
  ⟨replaceAll old.data new.data s.data⟩

/-- Python `s.startswith(p)`; also the semantics of an S3 `list_objects`
key filter for a given key pattern. -/
def pyStartsWith (s p : String) : Bool :=
  p.data.isPrefixOf s.data

/-- Python `s.rstrip('/')`: remove every trailing `'/'`. -/
def pyRstripSlash (s : String) : String :=
  ⟨List.rdropWhile (fun c => c == '/') s.data⟩

theorem replaceAllF_fuel_irrelevant (pat rep : List Char) :
    ∀ f₁ : Nat, ∀ s : List Char, ∀ f₂ : Nat, s.length ≤ f₁ → s.length ≤ f₂ →
      replaceAllF pat rep f₁ s = replaceAllF pat rep f₂ s := by
  intro f₁
  induction f₁ with
  | zero =>
    intro s f₂ h₁ _
    have hs : s = [] := List.eq_nil_of_length_eq_zero (Nat.le_zero.mp h₁)
    subst hs
    cases f₂ <;> rfl
  | succ n ih =>
    intro s f₂ h₁ h₂
    cases s with
    | nil => cases f₂ <;> rfl
    | cons c cs =>
      cases f₂ with
      | zero => simp at h₂
      | succ m =>
        simp only [replaceAllF]
        by_cases h : pat ≠ [] ∧ pat.isPrefixOf (c :: cs)
        · rw [if_pos h, if_pos h]
          have hp : 0 < pat.length := List.length_pos.mpr h.1
          have hd : ((c :: cs).drop pat.length).length ≤ n := by
            simp only [List.length_drop, List.length_cons]
            simp only [List.length_cons] at h₁
            omega
          have hd₂ : ((c :: cs).drop pat.length).length ≤ m := by
            simp only [List.length_drop, List.length_cons]
            simp only [List.length_cons] at h₂
            omega
          rw [ih _ _ hd hd₂]
        · rw [if_neg h, if_neg h]
          have hc : cs.length ≤ n := by
            simp only [List.length_cons] at h₁; omega
          have hc₂ : cs.length ≤ m := by
            simp only [List.length_cons] at h₂; omega
          rw [ih _ _ hc hc₂]

/-- Unfolding `replaceAll` at an occurrence of the pattern sitting at the
front of the string. -/
theorem replaceAll_head_match (pat rep t : List Char) (hp : pat ≠ []) :
    replaceAll pat rep (pat ++ t) = rep ++ replaceAll pat rep t := by
  cases pat with
  | nil => exact absurd rfl hp
  | cons p ps =>
    have hlen : ((p :: ps) ++ t).length = (ps ++ t).length + 1 := by simp
    show replaceAllF (p :: ps) rep ((p :: ps) ++ t).length ((p :: ps) ++ t) = _
    rw [hlen]
    simp only [List.cons_append, replaceAllF]
    have hpre : (p :: ps).isPrefixOf (p :: (ps ++ t)) = true := by
      rw [List.isPrefixOf_iff_prefix]
      exact (List.prefix_append (p :: ps) t).trans (by simp)
    rw [if_pos ⟨by simp, hpre⟩]
    congr 1
    have hdrop : List.drop (p :: ps).length (p :: List.append ps t) = t :=
      List.drop_left (p :: ps) t
    rw [hdrop]
    exact replaceAllF_fuel_irrelevant _ _ _ _ _ (by simp) (Nat.le_refl _)

/-- `str.replace` never shortens the string when the replacement is at least
as long as the pattern. -/
theorem replaceAll_length_ge (pat rep : List Char) (hlen : pat.length ≤ rep.length) :
    ∀ fuel : Nat, ∀ s : List Char, s.length ≤ (replaceAllF pat rep fuel s).length := by
  intro fuel
  induction fuel with
  | zero => intro s; cases s <;> simp [replaceAllF]
  | succ n ih =>
    intro s
    cases s with
    | nil => simp [replaceAllF]
    | cons c cs =>
      simp only [replaceAllF]
      by_cases h : pat ≠ [] ∧ pat.isPrefixOf (c :: cs)
      · rw [if_pos h]
        have hple : pat.length ≤ (c :: cs).length := by
          have := List.isPrefixOf_iff_prefix.mp h.2
          exact this.length_le
        have := ih ((c :: cs).drop pat.length)
        simp only [List.length_append, List.length_drop, List.length_cons] at *
        omega
      · rw [if_neg h]
        have := ih cs
        simp only [List.length_cons]
        omega

/-- If an agent identifier `a` contains no `'/'` and differs from
`"processed"`, then `a ++ "/"` can never begin a string of the form
`"processed/" ++ t`.  This is the combinatorial heart of the non-redelivery
property of `get_messages`: a key moved under the `messages/processed/`
namespace no longer matches the recipient's `messages/<agent_id>/` pattern. -/
theorem slash_terminated_not_processed_pre (a t : List Char)
    (ha : ('/' : Char) ∉ a) (hne : a ≠ "processed".data) :
    ¬ (a ++ ['/']) <+: ("processed/".data ++ t) := by
  intro h
  obtain ⟨r, hr⟩ := h
  by_cases hn : a.length + 1 ≤ 10
  · -- the candidate fits inside the literal "processed/"
    have h1 : ((a ++ ['/']) ++ r).take (a.length + 1) = a ++ ['/'] := by
      rw [show a.length + 1 = (a ++ ['/']).length by simp, List.take_left]
    have h2 : ("processed/".data ++ t).take (a.length + 1)
        = ("processed/".data).take (a.length + 1) := by
      have hlen : a.length + 1 ≤ ("processed/".data).length := by
        simpa using hn
      exact List.take_append_of_le_length hlen
    have heq : a ++ ['/'] = ("processed/".data).take (a.length + 1) := by
      rw [← h1, hr, h2]
    have hgA : (a ++ ['/'])[a.length]? = some '/' := by
      rw [List.getElem?_append_right (Nat.le_refl _)]
      simp
    have hgP : ("processed/".data)[a.length]? = some '/' := by
      have := heq ▸ hgA
      rwa [List.getElem?_take, if_pos (Nat.lt_succ_self _)] at this
    have h9 : a.length = 9 := by
      have hb : ∀ k, k < 10 → ("processed/".data)[k]? = some '/' → k = 9 := by decide
      exact hb a.length (by omega) hgP
    have hfull : a ++ ['/'] = "processed/".data := by
      rw [heq, h9]
      decide
    have : a = "processed".data := by
      have : a ++ ['/'] = "processed".data ++ ['/'] := by
        rw [hfull]; decide
      exact List.append_cancel_right this
    exact hne this
  · -- the candidate is longer than "processed/", so "processed/" starts it
    have hlen : 10 ≤ a.length := by omega
    have h1 : ((a ++ ['/']) ++ r).take 10 = a.take 10 := by
      rw [List.append_assoc]
      exact List.take_append_of_le_length hlen
    have h2 : ("processed/".data ++ t).take 10 = "processed/".data := by
      rw [show (10 : Nat) = ("processed/".data).length from rfl, List.take_left]
    have heq : a.take 10 = "processed/".data := by rw [← h1, hr, h2]
    have hg : a[9]? = some '/' := by
      have h3 : (a.take 10)[9]? = a[9]? := by
        rw [List.getElem?_take, if_pos (by omega)]
      rw [← h3, heq]
      decide
    exact ha (List.getElem?_mem hg)

/-! ## S3-backed mailbox store

The A2A engine stores one message per S3 object key.  The repository's `S3`
helper class (`aws_service_layer.py`) defines `put_object` and `get_object`;
the `list_objects`, `copy_object` and `delete_object` operations invoked by
`protocol_interfaces.py` are absent from the source and are modelled from the
spec's blob-adapter contract (section 6): `list(bucket, prefix)` yields the
key descriptors under a key pattern, `copy` duplicates one key's body to
another key, `delete` removes one key.  The single bound message bucket is the
association list `Store`; JSON round-tripping of a message dictionary is the
identity, so bodies are message records. -/

/-- Opaque structured message payload (the `content` dictionary). -/
abbrev Content := List (String × String)

/-- `AgentMessage` dataclass (`protocol_interfaces.py`).  The generated
`message_id` (a UUID) and the send-time clock reading are injected by the
caller of the model; the source's `timestamp` default expression is
syntactically malformed Python, so the field is modelled as the injected
send-time value the surrounding code evidently intends. -/
structure AgentMessage where
  message_id : String
  sender_id : String
  recipient_id : String
  content : Content
  correlation_id : Option String
  timestamp : ℚ
  ttl : Option Nat
deriving DecidableEq

/-- The contents of the bound S3 message bucket: object key to stored body. -/
abbrev Store := List (String × AgentMessage)

/-- `S3.put_object` (source): store a body under a key, overwriting. -/
def put_object (s : Store) (k : String) (v : AgentMessage) : Store :=
  (s.filter (fun kv => kv.1 != k)) ++ [(k, v)]

/-- `S3.get_object` (source): fetch and JSON-parse a key's body; `none`
models the `NoSuchKey` result. -/
def get_object (s : Store) (k : String) : Option AgentMessage :=
  (s.find? (fun kv => kv.1 == k)).map Prod.snd

/-- Modelled from the spec: `S3.list_objects` is missing from
`aws_service_layer.py`; per the blob-adapter contract it lists the key
descriptors whose key starts with the given key pattern (order
store-defined).  The caller's `response.get('Contents', [])` / `obj['Key']`
unwrapping is folded in, so the model returns the keys themselves. -/
def list_objects (s : Store) (pat : String) : List String :=
  (s.map Prod.fst).filter (fun k => pyStartsWith k pat)

/-- Modelled from the spec: `S3.copy_object` is missing from
`aws_service_layer.py`; per the blob-adapter contract it duplicates the
source key's body under the destination key (a no-op when the source key is
absent, a case the engine never reaches). -/
def copy_object (s : Store) (src dst : String) : Store :=
  match get_object s src with
  | some v => put_object s dst v
  | none => s

/-- Modelled from the spec: `S3.delete_object` is missing from
`aws_service_layer.py`; per the blob-adapter contract it removes one key. -/
def delete_object (s : Store) (k : String) : Store :=
  s.filter (fun kv => kv.1 != k)

/-! ## A2A protocol engine (`A2AProtocol`, `protocol_interfaces.py`) -/

/-- The key under which `send_message` deposits a message:
`f"messages/{recipient_id}/{message.message_id}.json"`. -/
def message_key (recipient_id mid : String) : String :=
  "messages/" ++ recipient_id ++ "/" ++ mid ++ ".json"

/-- The listing pattern used by `get_messages`:
`f"messages/{self.agent_id}/"`. -/
def unprocessed_pat (agent_id : String) : String :=
  "messages/" ++ agent_id ++ "/"

/-- `A2AProtocol.send_message`: build an `AgentMessage` stamped with the
bound sender identity and deposit it under the recipient's key.  `mid` is the
freshly generated UUID and `ts` the clock reading. -/
def send_message (agent_id mid : String) (ts : ℚ) (recipient_id : String)
    (content : Content) (correlation_id : Option String) (s : Store) :
    String × Store :=
  let message : AgentMessage :=
    { message_id := mid, sender_id := agent_id, recipient_id := recipient_id,
      content := content, correlation_id := correlation_id, timestamp := ts,
      ttl := none }
  (mid, put_object s (message_key recipient_id mid) message)

/-- The destination key of the processed-move:
`obj['Key'].replace("messages/", "messages/processed/")`. -/
def processed_key (k : String) : String :=
  pyReplace k "messages/" "messages/processed/"

/-- The body of the `get_messages` loop over the listed keys: fetch each key,
skip absent ones, and for each fetched message copy it to the processed key
and delete the original before moving on. -/
def get_messages_loop (keys : List String) (s : Store) :
    List AgentMessage × Store :=
  match keys with
  | [] => ([], s)
  | k :: rest =>
    match get_object s k with
    | none => get_messages_loop rest s
    | some m =>
      let s₁ := delete_object (copy_object s k (processed_key k)) k
      let p := get_messages_loop rest s₁
      (m :: p.1, p.2)

/-- `A2AProtocol.get_messages`: list up to `limit` keys under the bound
agent's unprocessed pattern and run the fetch-copy-delete loop. -/
def get_messages (agent_id : String) (limit : Nat) (s : Store) :
    List AgentMessage × Store :=
  get_messages_loop ((list_objects s (unprocessed_pat agent_id)).take limit) s

/-! ## Agent registry (`AgentRegistry`, `protocol_interfaces.py`) -/

/-- `AgentCard` dataclass: identity and capability descriptor.  The opaque
schema and metadata documents are flat string maps here. -/
structure AgentCard where
  agent_id : String
  name : String
  description : String
  version : String
  capabilities : List String
  input_schema : List (String × String) := []
  output_schema : List (String × String) := []
  auth_required : Bool := false
  rate_limit : Option Int := none
  metadata : List (String × String) := []
deriving DecidableEq

/-- `AgentRegistry.register_agent`: `DynamoDB.put` inside
`try/except Exception`, collapsing any raised store failure to `False` and
success to `True`.  The underlying put attempt's outcome (normal return or
raised exception description) is the argument. -/
def register_agent (put_outcome : Except String Unit) : Bool :=
  match put_outcome with
  | .ok _ => true
  | .error _ => false

/-- Result of a Python call in the embedding: a value, or an uncaught
`TypeError` raised while binding the call's arguments. -/
inductive PyResult (α : Type) where
  | ok : α → PyResult α
  | typeError : PyResult α
deriving DecidableEq

/-- The parameter names accepted by `DynamoDB.query`
(`aws_service_layer.py`, lines 39-53): `(table_name, key_condition,
index_name=None)`. -/
def dynamo_query_params : List String :=
  ["table_name", "key_condition", "index_name"]

/-- The keyword arguments passed by `find_agents_by_capability` beyond its
three positional arguments (`protocol_interfaces.py`, lines 59-64). -/
def find_agents_call_kwargs : List String :=
  ["expression_values"]

/-- Python call binding succeeds only when every keyword argument names an
accepted parameter; otherwise the call raises `TypeError` before the callee
body runs. -/
def kwargs_bind (params kwargs : List String) : Bool :=
  kwargs.all (fun k => params.contains k)

/-- `AgentRegistry.find_agents_by_capability`: invokes `DynamoDB.query` with
the keyword argument `expression_values`, which `DynamoDB.query` does not
accept, so argument binding raises `TypeError`.  Had the binding succeeded,
the `contains(capabilities, :cap)` condition would select the stored cards
whose capability set contains the capability. -/
def find_agents_by_capability (capability : String) (stored : List AgentCard) :
    PyResult (List AgentCard) :=
  if kwargs_bind dynamo_query_params find_agents_call_kwargs then
    .ok (stored.filter (fun card => card.capabilities.contains capability))
  else
    .typeError

/-! ## Retry decorator (`retry`, `aws_service_layer.py`)

`retry(max_attempts, base_delay, exponential)` wraps a call: on an exception
it sleeps and re-attempts, doubling the delay when `exponential`; after the
final attempt the last exception is re-raised.  The wrapped call is a
function from the attempt index to its outcome, and the returned list records
the argument of each `time.sleep`, in order. -/

/-- The retry loop from `for attempt in range(max_attempts)` onward.
`remaining` counts the attempts still allowed (`remaining = 1` means this is
the final attempt, after which no sleep happens and the last exception is
re-raised).  `.error none` is the degenerate `raise None` of a zero-attempt
budget. -/
def retry_loop {ε α : Type} (f : Nat → Except ε α) (base : ℚ) (expo : Bool) :
    Nat → Nat → ℚ → Option ε → Except (Option ε) α × List ℚ
  | _, 0, _, last => (.error last, [])
  | attempt, remaining + 1, delay, _ =>
    match f attempt with
    | .ok a => (.ok a, [])
    | .error e =>
      if 0 < remaining then
        if expo then
          let p := retry_loop f base expo (attempt + 1) remaining (delay * 2) (some e)
          (p.1, delay :: p.2)
        else
          let p := retry_loop f base expo (attempt + 1) remaining delay (some e)
          (p.1, base :: p.2)
      else
        retry_loop f base expo (attempt + 1) remaining delay (some e)

/-- The `retry` decorator applied to a call `f`: outcome plus the observed
sleep durations. -/
def retry_run {ε α : Type} (max_attempts : Nat) (base : ℚ) (expo : Bool)
    (f : Nat → Except ε α) : Except (Option ε) α × List ℚ :=
  retry_loop f base expo 0 max_attempts base none

/-! ## MCP client (`MCPClient`, `protocol_interfaces.py`) -/

/-- Exceptions on the MCP transport path: a connection-level error from
`requests.post`, the `HTTPError` of `raise_for_status` on a 4xx/5xx status,
or a JSON parse failure of the reply body. -/
inductive PyErr where
  | connectionError : String → PyErr
  | httpError : Nat → PyErr
  | jsonError : String → PyErr
deriving DecidableEq

/-- The structured reply body as parsed JSON: each envelope field either
present or absent (`result.get(...)` supplies the defaults). -/
structure MCPWire where
  status : Option String
  data : Option (List (String × String))
  errors : Option (List String)
  request_id : Option String
deriving DecidableEq

/-- `MCPResponse` dataclass. -/
structure MCPResponse where
  status : String
  data : List (String × String)
  errors : List String
  request_id : String
deriving DecidableEq

/-- The `MCPResponse.success` property: `status == "success"`. -/
def MCPResponse.success (r : MCPResponse) : Bool :=
  r.status == "success"

/-- One observed outcome of `requests.post`: an exception, or an HTTP reply
with a status code and a (possibly unparsable) JSON body. -/
inductive Transport where
  | exn : PyErr → Transport
  | http : Nat → Except PyErr MCPWire → Transport

/-- Building the `MCPResponse` from a parsed reply: each field defaulted as
in the source (`result.get("status", "error")` etc.), `request_id` falling
back to the request's own id. -/
def mk_response (req_id : String) (w : MCPWire) : MCPResponse :=
  { status := w.status.getD "error",
    data := w.data.getD [],
    errors := w.errors.getD [],
    request_id := w.request_id.getD req_id }

/-- The body of `MCPClient.call` for one attempt: post, then
`raise_for_status` (which raises exactly on a 4xx/5xx code), then parse the
JSON body and build the `MCPResponse`.  `req_id` is the fresh UUID generated
for this attempt's `MCPRequest`. -/
def call_once (req_id : String) : Transport → Except PyErr MCPResponse
  | .exn e => .error e
  | .http code body =>
    if 400 ≤ code ∧ code < 600 then
      .error (.httpError code)
    else
      match body with
      | .error e => .error e
      | .ok w => .ok (mk_response req_id w)

/-- `MCPClient.call` as decorated by `@retry(max_attempts=3)`, generalised
over the configured base delay (`base_delay` defaults to `1/10` of a second,
`exponential` to `True`).  `transports n` is the transport outcome and
`req_ids n` the generated request id of attempt `n`. -/
def mcp_call_with (base : ℚ) (transports : Nat → Transport)
    (req_ids : Nat → String) : Except (Option PyErr) MCPResponse × List ℚ :=
  retry_run 3 base true (fun n => call_once (req_ids n) (transports n))

/-- `MCPClient.call` with the decorator's default `base_delay=0.1`. -/
def mcp_call (transports : Nat → Transport) (req_ids : Nat → String) :
    Except (Option PyErr) MCPResponse × List ℚ :=
  mcp_call_with (1 / 10) transports req_ids

/-- `MCPClient.__init__`: `self.base_url = base_url.rstrip('/')`. -/
def client_base_url (raw : String) : String :=
  pyRstripSlash raw

/-- The URL every `MCPClient.call` posts to: `f"{self.base_url}/invoke"`. -/
def invoke_url (raw : String) : String :=
  client_base_url raw ++ "/invoke"

/-! ## Lambda handler (`handler`, `react_agent_lambda_handler.py`) -/

/-- A JSON-style value of the handler's response payload. -/
inductive PyVal where
  | str : String → PyVal
  | num : ℚ → PyVal
deriving DecidableEq

/-- A handler response payload: an ordered dictionary of fields. -/
abbrev Payload := List (String × PyVal)

/-- The two event fields the handler's validation inspects.  A missing field
is `none`; every other part of the event is inside `AgentRun`. -/
structure HandlerEvent where
  agent_id : Option String
  input : Option String
deriving DecidableEq

/-- Python truthiness test `not x` on an optional string: true for an absent
field and for the empty string. -/
def pyFalsy (o : Option String) : Bool :=
  match o with
  | none => true
  | some s => s == ""

/-- The outcome of everything after validation — constructing the
`ReActAgent` (registry registration, state load) and running `process` —
abstracted to its observable result: the result payload or the description
of the raised exception, together with the store/registry operations
performed along the way. -/
structure AgentRun where
  result : Except String Payload
  effects : List String

/-- The Lambda `handler`: validate `agent_id` and `input` by truthiness,
then run the agent; a raised exception becomes a structured error payload
whose diagnostic traceback `tb` appears only under the `DEBUG` flag, and the
two success/exception paths (but not the validation paths) append the timing
telemetry.  Returns the payload and the store/registry effects performed. -/
def handler (ev : HandlerEvent) (debug : Bool) (run : AgentRun)
    (elapsed remaining : ℚ) (tb : String) : Payload × List String :=
  if pyFalsy ev.agent_id then
    ([("error", .str "Missing agent_id")], [])
  else if pyFalsy ev.input then
    ([("error", .str "Missing input")], [])
  else
    match run.result with
    | .ok r =>
      (r ++ [("execution_time", .num elapsed), ("remaining_time", .num remaining)],
        run.effects)
    | .error e =>
      if debug then
        ([("error", .str e), ("traceback", .str tb), ("execution_time", .num elapsed)],
          run.effects)
      else
        ([("error", .str e), ("execution_time", .num elapsed)], run.effects)

/-! ## Claims -/

/-- C3: `register_agent` maps any raised failure of the underlying store put
to the return value `false`, and a successful put to `true`.  "Never raises"
is expressed by the embedding's totality: the function returns a `Bool` for
every put outcome, including every exception. -/
theorem register_agent_swallows_store_failure (e : String) :
    register_agent (.error e) = false ∧ register_agent (.ok ()) = true :=
  ⟨rfl, rfl⟩

/-- C3 witness. -/
theorem register_agent_swallows_store_failure_witness :
    register_agent (.error "dynamodb unavailable") = false ∧
      register_agent (.ok ()) = true :=
  register_agent_swallows_store_failure "dynamodb unavailable"

/-- C2 (code bug): `find_agents_by_capability` never reaches the capability
filter: for every capability and every set of stored cards, the call to
`DynamoDB.query` passes the keyword argument `expression_values`, which the
callee's signature does not accept, so the invocation raises `TypeError`
instead of returning the matching cards. -/
theorem find_agents_by_capability_raises_type_error
    (capability : String) (stored : List AgentCard) :
    find_agents_by_capability capability stored = .typeError := rfl

/-- C4: an MCP call whose transport fails on attempts 1 and 2 and succeeds
on attempt 3 returns the attempt-3 response, and exactly two sleeps are
observed, of the configured base delay and twice that delay, in that order
(exponential backoff, attempt budget 3 as configured on `MCPClient.call`). -/
theorem mcp_call_two_failures_then_success (base : ℚ)
    (transports : Nat → Transport) (req_ids : Nat → String)
    (e₀ e₁ : PyErr) (r : MCPResponse)
    (h0 : call_once (req_ids 0) (transports 0) = .error e₀)
    (h1 : call_once (req_ids 1) (transports 1) = .error e₁)
    (h2 : call_once (req_ids 2) (transports 2) = .ok r) :
    mcp_call_with base transports req_ids = (.ok r, [base, base * 2]) := by
  simp [mcp_call_with, retry_run, retry_loop, h0, h1, h2]

/-- C4 witness: a transport that refuses connection twice and then delivers
a success envelope. -/
theorem mcp_call_two_failures_then_success_witness :
    mcp_call_with 1
        (fun n => if n = 2 then
            .http 200 (.ok ⟨some "success", none, none, none⟩)
          else .exn (.connectionError "refused"))
        (fun _ => "rid")
      = (.ok (mk_response "rid" ⟨some "success", none, none, none⟩), [1, 1 * 2]) :=
  mcp_call_two_failures_then_success 1
    (fun n => if n = 2 then
        .http 200 (.ok ⟨some "success", none, none, none⟩)
      else .exn (.connectionError "refused"))
    (fun _ => "rid")
    (.connectionError "refused") (.connectionError "refused")
    (mk_response "rid" ⟨some "success", none, none, none⟩) rfl rfl rfl

/-- C5: a structurally valid reply (2xx status code, parsable body) whose
envelope `status` is a non-success value is returned normally after the
first attempt: no retry occurs (no sleep is observed and attempts 2 and 3
are never consulted — the conclusion holds for arbitrary `transports n`,
`n ≥ 1`), and the returned response carries the error status with
`success = false`. -/
theorem mcp_call_app_error_not_retried (base : ℚ)
    (transports : Nat → Transport) (req_ids : Nat → String)
    (code : Nat) (w : MCPWire) (s : String)
    (h0 : transports 0 = .http code (.ok w))
    (hc : 200 ≤ code ∧ code < 300)
    (hs : w.status = some s) (hns : s ≠ "success") :
    mcp_call_with base transports req_ids
        = (.ok (mk_response (req_ids 0) w), []) ∧
      (mk_response (req_ids 0) w).status = s ∧
      (mk_response (req_ids 0) w).success = false := by
  have hcall : call_once (req_ids 0) (transports 0) = .ok (mk_response (req_ids 0) w) := by
    rw [h0]
    simp only [call_once]
    rw [if_neg (by omega)]
  refine ⟨?_, ?_, ?_⟩
  · simp [mcp_call_with, retry_run, retry_loop, hcall]
  · simp [mk_response, hs]
  · simp [MCPResponse.success, mk_response, hs]
    exact hns

/-- C5 witness: a 200 reply whose envelope status is `"error"`. -/
theorem mcp_call_app_error_not_retried_witness :
    mcp_call_with 1 (fun _ => .http 200 (.ok ⟨some "error", none, some ["bad"], none⟩))
        (fun _ => "rid2")
      = (.ok (mk_response "rid2" ⟨some "error", none, some ["bad"], none⟩), []) ∧
    (mk_response "rid2" ⟨some "error", none, some ["bad"], none⟩).status = "error" ∧
    (mk_response "rid2" ⟨some "error", none, some ["bad"], none⟩).success = false :=
  mcp_call_app_error_not_retried 1
    (fun _ => .http 200 (.ok ⟨some "error", none, some ["bad"], none⟩))
    (fun _ => "rid2") 200 ⟨some "error", none, some ["bad"], none⟩ "error"
    rfl (by omega) rfl (by decide)

/-- C10: the request URL of `MCPClient.call` is invariant under trailing
slashes on the configured base URL — two base URLs equal up to a number of
trailing `'/'` characters yield the same `<base>/invoke` target — and the
stored base URL never retains a trailing slash. -/
theorem invoke_url_trailing_slash_invariant :
    (∀ core : String, ∀ k₁ k₂ : Nat,
        invoke_url ⟨core.data ++ List.replicate k₁ '/'⟩
          = invoke_url ⟨core.data ++ List.replicate k₂ '/'⟩) ∧
    (∀ raw : String, (client_base_url raw).data.getLast? ≠ some '/') := by
  constructor
  · have key : ∀ (core : String) (k : Nat),
        pyRstripSlash ⟨core.data ++ List.replicate k '/'⟩ = pyRstripSlash core := by
      intro core k
      induction k with
      | zero => simp
      | succ n ih =>
        have : core.data ++ List.replicate (n + 1) '/'
            = (core.data ++ List.replicate n '/') ++ ['/'] := by
          rw [List.replicate_succ' n '/', List.append_assoc]
        simp only [pyRstripSlash, this] at *
        rw [List.rdropWhile_concat_pos _ _ _ (by simp)]
        exact ih
    intro core k₁ k₂
    simp only [invoke_url, client_base_url, key]
  · intro raw
    show (List.rdropWhile (fun c => c == '/') raw.data).getLast? ≠ some '/'
    by_cases hne : List.rdropWhile (fun c => c == '/') raw.data = []
    · rw [hne]; simp
    · rw [List.getLast?_eq_getLast _ hne]
      have hlast := List.rdropWhile_last_not (fun c => c == '/') raw.data hne
      intro hc
      apply hlast
      rw [Option.some_inj.mp hc]
      simp

/-- C8 counterexample: the claim says every failing handler invocation's
payload includes the execution-time telemetry, but an invocation failed by
input validation (here: a missing `agent_id`) returns only the error
description, with no `execution_time` field. -/
theorem handler_validation_failure_lacks_timing :
    (handler ⟨none, some "hello"⟩ false ⟨.error "boom", []⟩ 5 7 "tb").1
        = [("error", PyVal.str "Missing agent_id")] ∧
    ((handler ⟨none, some "hello"⟩ false ⟨.error "boom", []⟩ 5 7 "tb").1).lookup
        "execution_time" = none := by
  constructor <;> rfl

/-- C8 (amended): a handler invocation that fails by a raised exception
returns a structured payload carrying the failure's description and the
execution-time telemetry, with the diagnostic traceback present exactly when
the debug flag is set; an invocation that fails input validation returns
only the error description, without the timing telemetry. -/
theorem handler_failure_payloads (ev : HandlerEvent) (debug : Bool)
    (run : AgentRun) (e : String) (elapsed remaining : ℚ) (tb : String) :
    (pyFalsy ev.agent_id = false → pyFalsy ev.input = false →
      run.result = .error e →
      (handler ev debug run elapsed remaining tb).1
        = if debug then
            [("error", .str e), ("traceback", .str tb), ("execution_time", .num elapsed)]
          else
            [("error", .str e), ("execution_time", .num elapsed)]) ∧
    (pyFalsy ev.agent_id = true →
      (handler ev debug run elapsed remaining tb).1
          = [("error", PyVal.str "Missing agent_id")] ∧
        ((handler ev debug run elapsed remaining tb).1).lookup "execution_time"
          = none) ∧
    (pyFalsy ev.agent_id = false → pyFalsy ev.input = true →
      (handler ev debug run elapsed remaining tb).1
          = [("error", PyVal.str "Missing input")] ∧
        ((handler ev debug run elapsed remaining tb).1).lookup "execution_time"
          = none) := by
  refine ⟨?_, ?_, ?_⟩
  · intro hA hI he
    cases debug <;> simp [handler, hA, hI, he]
  · intro hA
    simp [handler, hA]
  · intro hA hI
    simp [handler, hA, hI]

/-- C8 witness. -/
theorem handler_failure_payloads_witness :
    (handler ⟨some "agent-1", some "hello"⟩ true ⟨.error "boom", ["put"]⟩ 5 7 "tb").1
      = if true then
          [("error", .str "boom"), ("traceback", .str "tb"), ("execution_time", .num 5)]
        else
          [("error", .str "boom"), ("execution_time", .num 5)] :=
  (handler_failure_payloads ⟨some "agent-1", some "hello"⟩ true
    ⟨.error "boom", ["put"]⟩ "boom" 5 7 "tb").1 rfl rfl rfl

/-- C9 counterexample: the claim quantifies over every event whose `input`
field is the empty string, but an event that also lacks a truthy `agent_id`
is rejected by the earlier check and yields `{"error": "Missing agent_id"}`,
not `{"error": "Missing input"}`. -/
theorem handler_empty_input_counterexample :
    (handler ⟨none, some ""⟩ false ⟨.error "x", []⟩ 0 0 "t").1
        ≠ [("error", PyVal.str "Missing input")] ∧
    (handler ⟨none, some ""⟩ false ⟨.error "x", []⟩ 0 0 "t").1
        = [("error", PyVal.str "Missing agent_id")] := by
  constructor
  · decide
  · rfl

/-- C9 (amended): for every event with a truthy `agent_id` whose `input`
field is present but empty, the handler returns exactly the payload
`{"error": "Missing input"}` with no store or registry effect — the agent is
never constructed, whatever its run would have done — and the result is
indistinguishable from that for an event with the `input` field absent. -/
theorem handler_empty_input_rejected (ev : HandlerEvent) (debug : Bool)
    (run : AgentRun) (elapsed remaining : ℚ) (tb : String)
    (hA : pyFalsy ev.agent_id = false) (hI : ev.input = some "") :
    handler ev debug run elapsed remaining tb
        = ([("error", PyVal.str "Missing input")], []) ∧
    handler ev debug run elapsed remaining tb
        = handler ⟨ev.agent_id, none⟩ debug run elapsed remaining tb := by
  have h1 : pyFalsy (some "") = true := rfl
  have h2 : pyFalsy (none : Option String) = true := rfl
  constructor <;> simp [handler, hA, hI, h1, h2]

/-- C9 witness. -/
theorem handler_empty_input_rejected_witness :
    handler ⟨some "agent-2", some ""⟩ true ⟨.ok [], ["register"]⟩ 1 2 "t"
        = ([("error", PyVal.str "Missing input")], []) ∧
    handler ⟨some "agent-2", some ""⟩ true ⟨.ok [], ["register"]⟩ 1 2 "t"
        = handler ⟨some "agent-2", none⟩ true ⟨.ok [], ["register"]⟩ 1 2 "t" :=
  handler_empty_input_rejected ⟨some "agent-2", some ""⟩ true
    ⟨.ok [], ["register"]⟩ 1 2 "t" rfl rfl

/-! ### Mailbox bookkeeping lemmas -/

theorem unprocessed_pat_data (a : String) :
    (unprocessed_pat a).data = "messages/".data ++ (a.data ++ ['/']) := by
  simp [unprocessed_pat, String.data_append, List.append_assoc]

theorem message_key_data (a mid : String) :
    (message_key a mid).data
      = (unprocessed_pat a).data ++ (mid.data ++ ".json".data) := by
  simp [message_key, unprocessed_pat, String.data_append, List.append_assoc]

theorem pyStartsWith_of_data_append (k p : String) (r : List Char)
    (h : k.data = p.data ++ r) : pyStartsWith k p = true := by
  rw [pyStartsWith, h, List.isPrefixOf_iff_prefix]
  exact List.prefix_append _ _

theorem message_key_matches_pat (a mid : String) :
    pyStartsWith (message_key a mid) (unprocessed_pat a) = true :=
  pyStartsWith_of_data_append _ _ _ (message_key_data a mid)

theorem get_object_put_self (s : Store) (k : String) (v : AgentMessage) :
    get_object (put_object s k v) k = some v := by
  simp only [get_object, put_object, List.find?_append]
  have h1 : (s.filter (fun kv => kv.1 != k)).find? (fun kv => kv.1 == k) = none := by
    rw [List.find?_eq_none]
    intro kv hkv
    have h2 := (List.mem_filter.mp hkv).2
    simp only [bne_iff_ne, ne_eq] at h2
    simp [h2]
  rw [h1]
  simp

theorem get_object_delete_ne (s : Store) (k₁ k₂ : String) (h : k₁ ≠ k₂) :
    get_object (delete_object s k₂) k₁ = get_object s k₁ := by
  induction s with
  | nil => rfl
  | cons kv rest ih =>
    by_cases hk : kv.1 = k₂
    · have hd : delete_object (kv :: rest) k₂ = delete_object rest k₂ := by
        simp [delete_object, List.filter_cons, hk]
      have hg : get_object (kv :: rest) k₁ = get_object rest k₁ := by
        have : (kv.1 == k₁) = false := by
          simp only [beq_eq_false_iff_ne, ne_eq, hk]
          exact fun hc => h hc.symm
        simp [get_object, List.find?_cons, this]
      rw [hd, hg, ih]
    · have hd : delete_object (kv :: rest) k₂ = kv :: delete_object rest k₂ := by
        simp [delete_object, List.filter_cons, hk]
      rw [hd]
      by_cases hk₁ : kv.1 = k₁
      · simp [get_object, List.find?_cons, hk₁]
      · have hb : (kv.1 == k₁) = false := by simp [hk₁]
        simp only [get_object, List.find?_cons, hb, cond_false]
        exact ih

theorem list_objects_put_fresh (s : Store) (k : String) (v : AgentMessage)
    (pat : String) (hs : ∀ kv ∈ s, pyStartsWith kv.1 pat = false)
    (hk : pyStartsWith k pat = true) :
    list_objects (put_object s k v) pat = [k] := by
  simp only [list_objects, put_object, List.map_append, List.filter_append]
  have h1 : ((s.filter fun kv => kv.1 != k).map Prod.fst).filter
      (fun kk => pyStartsWith kk pat) = [] := by
    rw [List.filter_eq_nil_iff]
    intro x hx
    obtain ⟨kv, hkv, rfl⟩ := List.mem_map.mp hx
    have hmem := (List.mem_filter.mp hkv).1
    simp [hs kv hmem]
  rw [h1]
  simp [hk]

theorem processed_key_data (k : String) (rest : List Char)
    (hk : k.data = "messages/".data ++ rest) :
    (processed_key k).data
      = "messages/".data ++ ("processed/".data
          ++ replaceAll "messages/".data "messages/processed/".data rest) := by
  show replaceAll "messages/".data "messages/processed/".data k.data = _
  rw [hk, replaceAll_head_match _ _ _ (by decide),
    show ("messages/processed/" : String).data
      = "messages/".data ++ "processed/".data by decide,
    List.append_assoc]

theorem ne_processed_key (k : String) (rest : List Char)
    (hk : k.data = "messages/".data ++ rest) :
    k ≠ processed_key k := by
  intro h
  have hd : k.data = (processed_key k).data := congrArg String.data h
  rw [processed_key_data k rest hk, hk] at hd
  have hlen := congrArg List.length hd
  rw [List.length_append, List.length_append, List.length_append] at hlen
  have hcancel := Nat.add_left_cancel hlen
  have hge : rest.length
      ≤ (replaceAll "messages/".data "messages/processed/".data rest).length := by
    change rest.length
      ≤ (replaceAllF "messages/".data "messages/processed/".data rest.length rest).length
    exact replaceAll_length_ge _ _ (by decide) rest.length rest
  have h10 : ("processed/".data).length = 10 := by decide
  omega

/-- The moved key of a freshly deposited message never matches the
recipient's unprocessed listing pattern, provided the recipient identifier
contains no `'/'` and is not the reserved word `"processed"`. -/
theorem processed_key_escapes_pat (a mid : String)
    (ha : ('/' : Char) ∉ a.data) (hne : a ≠ "processed") :
    pyStartsWith (processed_key (message_key a mid)) (unprocessed_pat a) = false := by
  have hk : (message_key a mid).data
      = "messages/".data ++ ((a.data ++ ['/']) ++ (mid.data ++ ".json".data)) := by
    rw [message_key_data, unprocessed_pat_data, List.append_assoc]
  rw [pyStartsWith]
  rw [Bool.eq_false_iff]
  intro hb
  have hp : (unprocessed_pat a).data <+: (processed_key (message_key a mid)).data :=
    List.isPrefixOf_iff_prefix.mp hb
  rw [processed_key_data _ _ hk, unprocessed_pat_data] at hp
  rw [List.prefix_append_right_inj] at hp
  exact slash_terminated_not_processed_pre a.data _ ha
    (fun hcontra => hne (String.ext hcontra)) hp

/-- The key of a freshly deposited message differs from its moved key. -/
theorem message_key_ne_processed (a mid : String) :
    message_key a mid ≠ processed_key (message_key a mid) :=
  ne_processed_key _ _ (by
    rw [message_key_data, unprocessed_pat_data, List.append_assoc])

/-- Full trace of sending one message into a mailbox holding no pending
messages for the recipient and then receiving: the single deposited message
is returned and its key is moved by the copy-then-delete pair. -/
theorem send_get_trace (sender a mid : String) (ts : ℚ) (content : Content)
    (corr : Option String) (store₀ : Store) (limit : Nat) (hlim : 0 < limit)
    (hs : ∀ kv ∈ store₀, pyStartsWith kv.1 (unprocessed_pat a) = false) :
    get_messages a limit (send_message sender mid ts a content corr store₀).2
      = ([⟨mid, sender, a, content, corr, ts, none⟩],
         delete_object
           (copy_object
             (put_object store₀ (message_key a mid) ⟨mid, sender, a, content, corr, ts, none⟩)
             (message_key a mid) (processed_key (message_key a mid)))
           (message_key a mid)) := by
  have hsend : (send_message sender mid ts a content corr store₀).2
      = put_object store₀ (message_key a mid) ⟨mid, sender, a, content, corr, ts, none⟩ := rfl
  rw [hsend]
  unfold get_messages
  rw [list_objects_put_fresh store₀ (message_key a mid) _ _ hs
    (message_key_matches_pat a mid)]
  obtain ⟨n, rfl⟩ : ∃ n, limit = n + 1 :=
    ⟨limit - 1, (Nat.succ_pred_eq_of_pos hlim).symm⟩
  rw [List.take_succ_cons, List.take_nil]
  unfold get_messages_loop
  rw [get_object_put_self]
  rfl

/-- C1: a message sent with `send_message` is returned by a subsequent
`get_messages` of an engine bound to the recipient (here: against a mailbox
with no other pending message for that recipient and a positive listing
limit), with the content and sender identity given at send time and with the
`message_id` that `send_message` returned. -/
theorem send_then_get_returns_message (sender a mid : String) (ts : ℚ)
    (content : Content) (corr : Option String) (store₀ : Store) (limit : Nat)
    (hlim : 0 < limit)
    (hs : ∀ kv ∈ store₀, pyStartsWith kv.1 (unprocessed_pat a) = false) :
    (get_messages a limit (send_message sender mid ts a content corr store₀).2).1
      = [{ message_id := (send_message sender mid ts a content corr store₀).1,
           sender_id := sender, recipient_id := a, content := content,
           correlation_id := corr, timestamp := ts, ttl := none }] := by
  rw [send_get_trace sender a mid ts content corr store₀ limit hlim hs]
  rfl

/-- C1 witness. -/
theorem send_then_get_returns_message_witness :
    0 < 10 ∧
    (get_messages "agent-b" 10
        (send_message "agent-a" "m1" 0 "agent-b" [("task", "summarize")] none []).2).1
      = [{ message_id :=
             (send_message "agent-a" "m1" 0 "agent-b" [("task", "summarize")] none []).1,
           sender_id := "agent-a", recipient_id := "agent-b",
           content := [("task", "summarize")], correlation_id := none,
           timestamp := 0, ttl := none }] :=
  ⟨by decide,
   send_then_get_returns_message "agent-a" "agent-b" "m1" 0 [("task", "summarize")]
     none [] 10 (by decide) (by intro kv hkv; cases hkv)⟩

/-- C6: the processed-move of `get_messages` is a copy under the moved key
followed by a delete of the original key; at every intermediate point —
before the copy, between copy and delete (the crash window), and after the
delete — the message body remains readable under at least one key, so
duplication is possible but loss is not. -/
theorem move_is_copy_then_delete_lossless (s : Store) (k : String)
    (m : AgentMessage) (rest : List Char)
    (hk : k.data = "messages/".data ++ rest)
    (hm : get_object s k = some m) :
    (∃ k₁, get_object s k₁ = some m) ∧
    (∃ k₁, get_object (copy_object s k (processed_key k)) k₁ = some m) ∧
    (∃ k₁,
      get_object (delete_object (copy_object s k (processed_key k)) k) k₁ = some m) := by
  have hcopy : copy_object s k (processed_key k) = put_object s (processed_key k) m := by
    simp [copy_object, hm]
  have hne : k ≠ processed_key k := ne_processed_key k rest hk
  refine ⟨⟨k, hm⟩, ⟨processed_key k, ?_⟩, ⟨processed_key k, ?_⟩⟩
  · rw [hcopy]
    exact get_object_put_self s (processed_key k) m
  · rw [hcopy, get_object_delete_ne _ _ _ (Ne.symm hne)]
    exact get_object_put_self s (processed_key k) m

/-- C6 witness. -/
theorem move_is_copy_then_delete_lossless_witness :
    ("messages/agent-b/m1.json" : String).data
        = "messages/".data ++ "agent-b/m1.json".data ∧
    get_object [("messages/agent-b/m1.json",
        ⟨"m1", "agent-a", "agent-b", [], none, 0, none⟩)] "messages/agent-b/m1.json"
      = some ⟨"m1", "agent-a", "agent-b", [], none, 0, none⟩ ∧
    ((∃ k₁, get_object [("messages/agent-b/m1.json",
        ⟨"m1", "agent-a", "agent-b", [], none, 0, none⟩)] k₁
          = some ⟨"m1", "agent-a", "agent-b", [], none, 0, none⟩) ∧
     (∃ k₁, get_object (copy_object [("messages/agent-b/m1.json",
        ⟨"m1", "agent-a", "agent-b", [], none, 0, none⟩)] "messages/agent-b/m1.json"
          (processed_key "messages/agent-b/m1.json")) k₁
          = some ⟨"m1", "agent-a", "agent-b", [], none, 0, none⟩) ∧
     (∃ k₁, get_object (delete_object (copy_object [("messages/agent-b/m1.json",
        ⟨"m1", "agent-a", "agent-b", [], none, 0, none⟩)] "messages/agent-b/m1.json"
          (processed_key "messages/agent-b/m1.json")) "messages/agent-b/m1.json") k₁
          = some ⟨"m1", "agent-a", "agent-b", [], none, 0, none⟩)) :=
  ⟨by decide, rfl,
   move_is_copy_then_delete_lossless _ _ _ "agent-b/m1.json".data (by decide) rfl⟩

/-- C7 counterexample: the claim that a message returned by `get_messages`
is never returned again fails for the recipient identity `"processed"`: the
moved key `messages/processed/processed/m1.json` still matches that
recipient's listing pattern `messages/processed/`, so an immediate second
`get_messages` returns the same `message_id` again. -/
theorem get_messages_redelivers_for_processed_agent :
    ((get_messages "processed" 10
        (send_message "agent-a" "m1" 0 "processed" [] none []).2).1).map
          AgentMessage.message_id = ["m1"] ∧
    ((get_messages "processed" 10
        (get_messages "processed" 10
          (send_message "agent-a" "m1" 0 "processed" [] none []).2).2).1).map
          AgentMessage.message_id = ["m1"] := by
  constructor <;> rfl

/-- C7 (amended): for every recipient identity that contains no `'/'` and is
not the reserved word `"processed"`, a message returned by `get_messages` is
never returned by a subsequent `get_messages` of the same recipient: after
the first call consumes the freshly sent message, a second call (any limit)
returns the empty batch and leaves the store unchanged. -/
theorem get_messages_no_redelivery (sender a mid : String) (ts : ℚ)
    (content : Content) (corr : Option String) (store₀ : Store)
    (limit limit₂ : Nat) (hlim : 0 < limit)
    (ha : ('/' : Char) ∉ a.data) (hne : a ≠ "processed")
    (hs : ∀ kv ∈ store₀, pyStartsWith kv.1 (unprocessed_pat a) = false) :
    (get_messages a limit (send_message sender mid ts a content corr store₀).2).1
        = [⟨mid, sender, a, content, corr, ts, none⟩] ∧
    get_messages a limit₂
        (get_messages a limit (send_message sender mid ts a content corr store₀).2).2
      = ([], (get_messages a limit
          (send_message sender mid ts a content corr store₀).2).2) := by
  have htrace := send_get_trace sender a mid ts content corr store₀ limit hlim hs
  refine ⟨by rw [htrace], ?_⟩
  rw [htrace]
  set msg : AgentMessage := ⟨mid, sender, a, content, corr, ts, none⟩ with hmsg
  set key := message_key a mid with hkey
  set pk := processed_key (message_key a mid) with hpk
  have hcopy : copy_object (put_object store₀ key msg) key pk
      = put_object (put_object store₀ key msg) pk msg := by
    simp [copy_object, get_object_put_self]
  have hempty : list_objects
      (delete_object (copy_object (put_object store₀ key msg) key pk) key)
      (unprocessed_pat a) = [] := by
    rw [hcopy]
    rw [list_objects, List.filter_eq_nil_iff]
    intro x hx
    obtain ⟨kv, hkv, rfl⟩ := List.mem_map.mp hx
    obtain ⟨hkv₁, hkv₂⟩ := List.mem_filter.mp hkv
    simp only [bne_iff_ne, ne_eq, decide_eq_true_eq] at hkv₂
    rcases List.mem_append.mp hkv₁ with hkv₃ | hkv₃
    · have hkv₄ := (List.mem_filter.mp hkv₃).1
      rcases List.mem_append.mp hkv₄ with hkv₅ | hkv₅
      · have := hs kv (List.mem_filter.mp hkv₅).1
        simp [this]
      · have : kv = (key, msg) := List.mem_singleton.mp hkv₅
        exact absurd (congrArg Prod.fst this) hkv₂
    · have : kv = (pk, msg) := List.mem_singleton.mp hkv₃
      rw [congrArg Prod.fst this]
      simp [processed_key_escapes_pat a mid ha hne]
  rw [get_messages, hempty]
  simp [get_messages_loop]

/-- C7 witness. -/
theorem get_messages_no_redelivery_witness :
    (get_messages "agent-b" 10
        (send_message "agent-a" "m2" 0 "agent-b" [("k", "v")] none []).2).1
        = [⟨"m2", "agent-a", "agent-b", [("k", "v")], none, 0, none⟩] ∧
    get_messages "agent-b" 10
        (get_messages "agent-b" 10
          (send_message "agent-a" "m2" 0 "agent-b" [("k", "v")] none []).2).2
      = ([], (get_messages "agent-b" 10
          (send_message "agent-a" "m2" 0 "agent-b" [("k", "v")] none []).2).2) :=
  get_messages_no_redelivery "agent-a" "agent-b" "m2" 0 [("k", "v")] none [] 10 10
    (by decide) (by decide) (by decide) (by intro kv hkv; cases hkv)

end AgenticAI
